import Mathlib

/-!
# Verification of the go-pf rule/ruleset/anchor pipeline

Shallow embedding of the `pf` package (wneessen/go-pf).  The repository
contains two revisions of several files; where they differ, the later
revision (lowercase `committed` field, `*net.IPNet` pointers, fixed
`SetDestinationCIDR`, `ActionUnknown` case in `SetAction`) is embedded as
the canonical program, matching the design document's instruction to treat
the later revisions as canonical.  Go machine integers that are only
compared and printed (the `uint32` ports) are embedded as `Nat`; Go enum
types (`int`) are embedded as `Int`; fallible operations return products
with an `Option String` error component; the external process boundary
(`os/exec`) is embedded as an abstract executor function together with an
explicit trace of the invocations that were issued.
-/

/-- Model of a Go `net.IP` value restricted to IPv4: the four bytes of the
address, each in `0..255`.  (The claims under verification never depend on
IPv6 parsing or rendering, so the IPv4 fragment of the `net` standard
library is what is modelled.) -/
abbrev IPv4 := List Nat

/-- Model of Go `net.IPNet`: an IP (possibly `nil`, hence `Option`) and a
netmask given as a list of bytes.  `net.ParseIP` returns `nil` for
malformed input and the repository's `parseIP` helper stores that `nil`
directly in the `IPNet`, so the `ip` component must be optional. -/
structure IPNet where
  ip : Option IPv4
  mask : List Nat
  deriving Repr, DecidableEq

/-- Decimal rendering of one IPv4 byte sequence, `"a.b.c.d"`; model of the
IPv4 branch of Go `net.IP.String`. -/
def IPv4.render (ip : IPv4) : String :=
  String.intercalate "." (ip.map Nat.repr)

/-- Model of Go `net.IP.String` (IPv4 fragment): `nil` renders as
`"<nil>"`. -/
def ipToString (ip : Option IPv4) : String :=
  match ip with
  | none => "<nil>"
  | some v => IPv4.render v

/-- Number of leading one bits of a mask byte, provided the byte is a
valid prefix byte; model of the per-byte step of Go's
`simpleMaskLength`. -/
def byteOnes (b : Nat) : Option Nat :=
  if b = 255 then some 8
  else if b = 254 then some 7
  else if b = 252 then some 6
  else if b = 248 then some 5
  else if b = 240 then some 4
  else if b = 224 then some 3
  else if b = 192 then some 2
  else if b = 128 then some 1
  else if b = 0 then some 0
  else none

/-- Model of Go's `simpleMaskLength`: the prefix length of a contiguous
mask, `none` when the mask is not a contiguous prefix. -/
def simpleMaskLength : List Nat → Option Nat
  | [] => some 0
  | b :: rest =>
    match byteOnes b with
    | none => none
    | some 8 =>
      match simpleMaskLength rest with
      | none => none
      | some n => some (8 + n)
    | some k =>
      if rest.all (fun x => x = 0) then some k else none

/-- Two-digit lowercase hex rendering of a byte; used by Go
`net.IPMask.String` when the mask is not a contiguous prefix. -/
def byteHex (b : Nat) : String :=
  let digit (n : Nat) : String :=
    (["0","1","2","3","4","5","6","7","8","9","a","b","c","d","e","f"].getD n "?")
  digit (b / 16 % 16) ++ digit (b % 16)

/-- Model of Go `net.IPNet.String` (IPv4 fragment): `"<nil>"` when the IP
is `nil` or the mask is not 4 bytes; otherwise the dotted address followed
by `/` and the prefix length (or the hex mask when the mask is not a
contiguous prefix). -/
def IPNet.toString (n : IPNet) : String :=
  match n.ip with
  | none => "<nil>"
  | some ip =>
    if n.mask.length = 4 then
      match simpleMaskLength n.mask with
      | some l => IPv4.render ip ++ "/" ++ Nat.repr l
      | none => IPv4.render ip ++ "/" ++ String.join (n.mask.map byteHex)
    else "<nil>"

/-- Split a character list at every occurrence of a separator character
(kernel-reducible counterpart of `strings.Split` for one-character
separators). -/
def splitChars (sep : Char) : List Char → List (List Char)
  | [] => [[]]
  | c :: rest =>
    if c = sep then [] :: splitChars sep rest
    else
      match splitChars sep rest with
      | [] => [[c]]
      | g :: gs => (c :: g) :: gs

/-- Split a string at every occurrence of a separator character. -/
def strSplit (s : String) (sep : Char) : List String :=
  (splitChars sep s.data).map String.mk

/-- Join strings with a separator (counterpart of `strings.Join`). -/
def joinSep (sep : String) : List String → String
  | [] => ""
  | [x] => x
  | x :: xs => x ++ sep ++ joinSep sep xs

/-- The numeric value of a decimal digit character. -/
def charDigit (c : Char) : Option Nat :=
  if '0' ≤ c ∧ c ≤ '9' then some (c.toNat - '0'.toNat) else none

/-- Parse a nonempty all-digit character list as a decimal `Nat`
(kernel-reducible counterpart of `String.toNat?`). -/
def decNatAux (acc : Nat) : List Char → Option Nat
  | [] => some acc
  | c :: cs =>
    match charDigit c with
    | none => none
    | some d => decNatAux (acc * 10 + d) cs

/-- Decimal value of a character list; `none` when empty or any character
is not a digit. -/
def decNatList (l : List Char) : Option Nat :=
  match l with
  | [] => none
  | _ => decNatAux 0 l

/-- One decimal IPv4 field: nonempty, all digits, no leading zero (Go
rejects leading zeros since 1.17), value at most 255; model of the field
step of Go `net.ParseIP`'s IPv4 branch. -/
def parseIPv4Field (s : String) : Option Nat :=
  match s.data with
  | [] => none
  | '0' :: _ :: _ => none
  | l =>
    match decNatList l with
    | none => none
    | some v => if v ≤ 255 then some v else none

/-- Model of Go `net.ParseIP` restricted to IPv4 dotted-quad input:
`none` models the `nil` return for malformed addresses. -/
def goParseIP (s : String) : Option IPv4 :=
  match (strSplit s '.').mapM parseIPv4Field with
  | some [a, b, c, d] => some [a, b, c, d]
  | _ => none

/-- Model of Go `net.CIDRMask n 32`: the 4-byte mask with `n` leading one
bits. -/
def cidrMask (ones : Nat) : List Nat :=
  (List.range 4).map (fun i =>
    let bits := min 8 (ones - 8 * i)
    255 - (2 ^ (8 - bits) - 1))

/-- Prefix-length field of a CIDR string: decimal, at most 32; model of the
mask parsing of Go `net.ParseCIDR`. -/
def parsePrefixLen (s : String) : Option Nat :=
  match decNatList s.data with
  | none => none
  | some v => if v ≤ 32 then some v else none

/-- Model of Go `net.ParseCIDR` restricted to IPv4: on success returns the
parsed (host) address together with the masked network and its mask, as Go
returns `(ip, ipnet, nil)`; `none` models the
`&ParseError{Type: "CIDR address"}` error return. -/
def goParseCIDR (s : String) : Option (IPv4 × IPNet) :=
  match strSplit s '/' with
  | [addr, maskStr] =>
    match goParseIP addr, parsePrefixLen maskStr with
    | some ip, some n =>
      let mask := cidrMask n
      some (ip, { ip := some (List.zipWith Nat.land ip mask), mask := mask })
    | _, _ => none
  | _ => none

/-- Error text of Go's `&ParseError{Type: "CIDR address", Text: s}`. -/
def cidrParseError (s : String) : String :=
  "invalid CIDR address: " ++ s

/-! ## Enum constants (`pf.go` / later revision)

The enum types are Go `int`s (named `PfAction`/`PfProtocol`/… in the
earlier revision and `Action`/`Protocol`/… in the later one); their
constants are consecutive `iota` values starting at 0. -/

abbrev PfAction := Int
abbrev PfAddrFam := Int
abbrev PfDirection := Int
abbrev PfProtocol := Int

def ProtocolTcp : PfProtocol := 0
def ProtocolUdp : PfProtocol := 1
def ProtocolIcmp : PfProtocol := 2
def ProtocolIcmpv6 : PfProtocol := 3
def ProtocolUnknown : PfProtocol := 4

def DirectionIn : PfDirection := 0
def DirectionOut : PfDirection := 1
def DirectionUnknown : PfDirection := 2

def ActionPass : PfAction := 0
def ActionBlock : PfAction := 1
def ActionUnknown : PfAction := 2

def AdressFamilyInet : PfAddrFam := 0
def AdressFamilyInetv6 : PfAddrFam := 1

/-! ## The Rule value object (`rule.go`, later revision) -/

/-- `Rule` holds all relevant data for a pf firewall anchor rule.  Field
names follow the Go struct (including the `AdressFamily` spelling); the
commit flag is spelled `Commited` in the earlier revision and `committed`
in the later one. -/
structure Rule where
  Action : String := ""
  AdressFamily : String := ""
  committed : Bool := false
  Direction : String := ""
  Destination : Option IPNet := none
  DestPort : Nat := 0
  Interface : String := ""
  Log : Bool := false
  Protocol : String := ""
  Source : Option IPNet := none
  SourcePort : Nat := 0
  deriving Repr, DecidableEq

/-- Model of Go `strconv.ParseInt(s, 10, 32)`: optional sign, nonempty
digit string, result within the signed 32-bit range. -/
def parseInt32 (s : String) : Except String Int :=
  let (neg, digits) : Bool × List Char :=
    match s.data with
    | '-' :: rest => (true, rest)
    | '+' :: rest => (false, rest)
    | l => (false, l)
  match decNatList digits with
  | none => Except.error ("invalid syntax: " ++ s)
  | some v =>
    let value : Int := if neg then -(v : Int) else (v : Int)
    if -(2 ^ 31) ≤ value ∧ value ≤ 2 ^ 31 - 1 then Except.ok value
    else Except.error ("value out of range: " ++ s)

/-- `fullNetmaskToBytes` converts a full 4-tuple netmask into a 4-byte
mask.  `strings.SplitN(m, ".", 4)` is modelled by regrouping the full
split; `strconv.ParseInt(s, 10, 32)` failures abort with an error, values
outside `0..255` are silently skipped, and fewer than four collected bytes
is an error. -/
def fullNetmaskToBytes (m : String) : Except String (List Nat) :=
  let parts := strSplit m '.'
  let tupArray :=
    if parts.length ≤ 4 then parts
    else parts.take 3 ++ [joinSep "." (parts.drop 3)]
  let step : Except String (List Nat) → String → Except String (List Nat) :=
    fun acc s =>
      match acc with
      | Except.error e => Except.error e
      | Except.ok tBytes =>
        match parseInt32 s with
        | Except.error e => Except.error e
        | Except.ok tInt =>
          if 0 ≤ tInt ∧ tInt ≤ 255 then Except.ok (tBytes ++ [tInt.toNat])
          else Except.ok tBytes
  match tupArray.foldl step (Except.ok []) with
  | Except.error e => Except.error e
  | Except.ok tBytes =>
    if tBytes.length = 4 then Except.ok tBytes
    else Except.error "netmask conversion failed"

/-- `parseIP` parses a given IP address with an optional netmask; the mask
defaults to `255.255.255.255` and a netmask-conversion failure silently
keeps the default.  A malformed address yields a `nil` IP inside the
returned `IPNet`, exactly as `net.ParseIP`'s `nil` is stored by the Go
code. -/
def parseIP (i : String) (m : List String) : IPNet :=
  let ipAddr := goParseIP i
  let netMask : List Nat := [255, 255, 255, 255]
  let netMask :=
    match m with
    | [m0] =>
      match fullNetmaskToBytes m0 with
      | Except.ok ipMask => ipMask
      | Except.error _ => netMask
    | _ => netMask
  { ip := ipAddr, mask := netMask }

/-- `SetSourceIP` sets a source IP for the current Rule (no-op once
committed). -/
def Rule.setSourceIP (a : Rule) (i : String) (m : List String) : Rule :=
  if a.committed = false then { a with Source := some (parseIP i m) } else a

/-- `SetSourceCIDR` sets a source network from a CIDR string; the parse
error (if any) is the second component, mirroring the Go `error` return.
No-op (and `nil` error) once committed. -/
def Rule.setSourceCIDR (a : Rule) (c : String) : Rule × Option String :=
  if a.committed = false then
    match goParseCIDR c with
    | none => (a, some (cidrParseError c))
    | some p => ({ a with Source := some p.2 }, none)
  else (a, none)

/-- `SetDestinationIP` sets a destination IP for the current Rule (no-op
once committed). -/
def Rule.setDestinationIP (a : Rule) (i : String) (m : List String) : Rule :=
  if a.committed = false then { a with Destination := some (parseIP i m) } else a

/-- `SetDestinationCIDR` (later revision): sets the destination network
from a CIDR string; parse errors are returned and nothing is assigned.
No-op (and `nil` error) once committed. -/
def Rule.setDestinationCIDR (a : Rule) (c : String) : Rule × Option String :=
  if a.committed = false then
    match goParseCIDR c with
    | none => (a, some (cidrParseError c))
    | some p => ({ a with Destination := some p.2 }, none)
  else (a, none)

/-- `SetDestinationCIDR` as it stands in the earliest revision
(`src/rule.go`): the parsed network is assigned to the *source* field. -/
def Rule.setDestinationCIDRv0 (a : Rule) (c : String) : Rule × Option String :=
  if a.committed = false then
    match goParseCIDR c with
    | none => (a, some (cidrParseError c))
    | some p => ({ a with Source := some p.2 }, none)
  else (a, none)

/-- `SetSourcePort` (no-op once committed). -/
def Rule.setSourcePort (a : Rule) (p : Nat) : Rule :=
  if a.committed = false then { a with SourcePort := p } else a

/-- `SetDestinationPort` (no-op once committed). -/
def Rule.setDestinationPort (a : Rule) (p : Nat) : Rule :=
  if a.committed = false then { a with DestPort := p } else a

/-- `SetInterface` (no-op once committed). -/
def Rule.setInterface (a : Rule) (i : String) : Rule :=
  if a.committed = false then { a with Interface := i } else a

/-- `SetProtocol` (later revision): tcp/udp/icmp/icmp6 map to their
strings, `ProtocolUnknown` and every other value map to the empty string.
No-op once committed. -/
def Rule.setProtocol (a : Rule) (p : PfProtocol) : Rule :=
  if a.committed = false then
    { a with Protocol :=
        if p = ProtocolTcp then "tcp"
        else if p = ProtocolUdp then "udp"
        else if p = ProtocolIcmp then "icmp"
        else if p = ProtocolIcmpv6 then "icmp6"
        else if p = ProtocolUnknown then ""
        else "" }
  else a

/-- `SetAction` (later revision): pass/block map to their strings,
`ActionUnknown` maps to the empty string, and only the `default` branch
(any other integer) maps to "block".  No-op once committed. -/
def Rule.setAction (a : Rule) (ac : PfAction) : Rule :=
  if a.committed = false then
    { a with Action :=
        if ac = ActionPass then "pass"
        else if ac = ActionBlock then "block"
        else if ac = ActionUnknown then ""
        else "block" }
  else a

/-- `SetAddrFamily`: inet/inet6 map to their strings, every other value to
the empty string.  No-op once committed. -/
def Rule.setAddrFamily (a : Rule) (f : PfAddrFam) : Rule :=
  if a.committed = false then
    { a with AdressFamily :=
        if f = AdressFamilyInet then "inet"
        else if f = AdressFamilyInetv6 then "inet6"
        else "" }
  else a

/-- `SetDirection` (later revision): in/out map to their strings,
`DirectionUnknown` and every other value to the empty string.  No-op once
committed. -/
def Rule.setDirection (a : Rule) (d : PfDirection) : Rule :=
  if a.committed = false then
    { a with Direction :=
        if d = DirectionIn then "in"
        else if d = DirectionOut then "out"
        else if d = DirectionUnknown then ""
        else "" }
  else a

/-- `SetLogging` enables logging for the current Rule.  Note: unlike every
other setter, the Go code guards this with no committed check. -/
def Rule.setLogging (a : Rule) : Rule :=
  { a with Log := true }

/-- `Commit` commits the current Rule so it is immutable. -/
def Rule.commit (a : Rule) : Rule :=
  { a with committed := true }

/-- `Rule.String` (later revision): sequential conditional appends onto an
initially empty string, exactly mirroring the Go pipeline, including the
address-family branch that re-serializes the *interface* value. -/
def Rule.toString (a : Rule) : String :=
  let fwRule := ""
  let fwRule := if a.Action ≠ "" then a.Action else fwRule
  let fwRule := if a.Direction ≠ "" then fwRule ++ " " ++ a.Direction else fwRule
  let fwRule := if a.Log then fwRule ++ " log" else fwRule
  let fwRule := if a.Interface ≠ "" then fwRule ++ " on " ++ a.Interface else fwRule
  let fwRule := if a.AdressFamily ≠ "" then fwRule ++ " on " ++ a.Interface else fwRule
  let fwRule := if a.Protocol ≠ "" then fwRule ++ " proto " ++ a.Protocol else fwRule
  let fwRule :=
    match a.Source with
    | some s => fwRule ++ " from " ++ s.toString
    | none => fwRule ++ " from any"
  let fwRule := if a.SourcePort > 0 then fwRule ++ " port " ++ Nat.repr a.SourcePort else fwRule
  let fwRule :=
    match a.Destination with
    | some d => fwRule ++ " to " ++ d.toString
    | none => fwRule ++ " to any"
  let fwRule := if a.DestPort > 0 then fwRule ++ " port " ++ Nat.repr a.DestPort else fwRule
  fwRule

/-! ## Specification-level rendering of a rule

The design document describes `Rule.String` as a clause list: action →
direction → "log" → "on <interface>" → (address-family clause, which the
code builds from the interface value) → protocol clause → source clause
(address or "any", plus port if nonzero) → destination clause (address or
"any", plus port if nonzero), each optional clause omitted exactly when
its backing field is at its zero value, the clauses joined by single
spaces.  The following definitions transcribe that description; the
theorems below compare them with the transcription of the code. -/

/-- The source clause: the address, or "any" when unset. -/
def fromClause (a : Rule) : String :=
  match a.Source with
  | some s => "from " ++ s.toString
  | none => "from any"

/-- The destination clause: the address, or "any" when unset. -/
def toClause (a : Rule) : String :=
  match a.Destination with
  | some d => "to " ++ d.toString
  | none => "to any"

/-- Clauses preceding the address-family clause (action excluded):
direction, "log", "on <interface>", each present iff its field is
nonzero. -/
def preFamClauses (a : Rule) : List String :=
  (if a.Direction ≠ "" then [a.Direction] else []) ++
  (if a.Log then ["log"] else []) ++
  (if a.Interface ≠ "" then ["on " ++ a.Interface] else [])

/-- The address-family clause: present iff the family field is nonempty,
and built (as in the code) from the *interface* value. -/
def famClauses (a : Rule) : List String :=
  if a.AdressFamily ≠ "" then ["on " ++ a.Interface] else []

/-- Clauses following the address-family clause: protocol, source clause,
source port, destination clause, destination port. -/
def postFamClauses (a : Rule) : List String :=
  (if a.Protocol ≠ "" then ["proto " ++ a.Protocol] else []) ++
  [fromClause a] ++
  (if a.SourcePort > 0 then ["port " ++ Nat.repr a.SourcePort] else []) ++
  [toClause a] ++
  (if a.DestPort > 0 then ["port " ++ Nat.repr a.DestPort] else [])

/-- The full clause list of a rule, in the serialization order fixed by the
design document. -/
def ruleClauses (a : Rule) : List String :=
  (if a.Action ≠ "" then [a.Action] else []) ++
  preFamClauses a ++ famClauses a ++ postFamClauses a

/-- Join a clause list with single spaces (the design document's "single
line statement" rendering). -/
def joinSpace : List String → String
  | [] => ""
  | [c] => c
  | c :: cs => c ++ " " ++ joinSpace cs

/-- The rule text as the design document describes it: the clause list
joined by single spaces. -/
def ruleTextSpec (a : Rule) : String :=
  joinSpace (ruleClauses a)

/-- The action prefix of the code's pipeline: the action, or the initial
empty accumulator when the action field is empty. -/
def actionText (a : Rule) : String :=
  if a.Action ≠ "" then a.Action else ""

/-- Helper: every clause rendered with a leading space, concatenated; this
is exactly how the code's pipeline appends its optional pieces. -/
def spaced : List String → String
  | [] => ""
  | c :: cs => " " ++ c ++ spaced cs

lemma spaced_append (l1 l2 : List String) :
    spaced (l1 ++ l2) = spaced l1 ++ spaced l2 := by
  induction l1 with
  | nil => simp [spaced]
  | cons c cs ih => simp [spaced, ih, String.append_assoc]

lemma spaced_opt (c : Prop) [Decidable c] (x : String) :
    spaced (if c then [x] else []) = if c then " " ++ x else "" := by
  split <;> simp [spaced]

lemma spaced_single (x : String) : spaced [x] = " " ++ x := by
  simp [spaced]

lemma spaced_eq_joinSpace (c : String) (cs : List String) :
    spaced (c :: cs) = " " ++ joinSpace (c :: cs) := by
  induction cs generalizing c with
  | nil => simp [spaced, joinSpace]
  | cons d ds ih => simp [spaced, joinSpace, String.append_assoc] at ih ⊢; rw [ih]

lemma step_if (c : Prop) [Decidable c] (s t : String) :
    (if c then s ++ t else s) = s ++ (if c then t else "") := by
  split <;> simp

lemma step_if2 (c : Prop) [Decidable c] (s x y : String) :
    (if c then s ++ x ++ y else s) = s ++ (if c then x ++ y else "") := by
  split <;> simp [String.append_assoc]

lemma spaced_nil : spaced [] = "" := rfl

lemma sp_log : (" " : String) ++ "log" = " log" := rfl
lemma sp_on (x : String) : " " ++ ("on " ++ x) = " on " ++ x := rfl
lemma sp_proto (x : String) : " " ++ ("proto " ++ x) = " proto " ++ x := rfl
lemma sp_from (x : String) : " " ++ ("from " ++ x) = " from " ++ x := rfl
lemma sp_from_any : (" " : String) ++ "from any" = " from any" := rfl
lemma sp_to (x : String) : " " ++ ("to " ++ x) = " to " ++ x := rfl
lemma sp_to_any : (" " : String) ++ "to any" = " to any" := rfl
lemma sp_port (x : String) : " " ++ ("port " ++ x) = " port " ++ x := rfl

/-- Central decomposition of the code's serializer: the output is the
action prefix followed by every later clause rendered with a leading
space. -/
lemma toString_pipeline (a : Rule) :
    Rule.toString a
      = actionText a ++ spaced (preFamClauses a ++ famClauses a ++ postFamClauses a) := by
  rcases hs : a.Source with _ | s <;> rcases hd : a.Destination with _ | d <;>
    (simp only [Rule.toString, hs, hd]
     simp only [step_if2, step_if]
     simp only [actionText, preFamClauses, famClauses, postFamClauses, fromClause,
       toClause, hs, hd, spaced_append, spaced_opt, spaced_single, spaced_nil,
       sp_log, sp_on, sp_proto, sp_from, sp_from_any, sp_to, sp_to_any, sp_port]
     simp [String.append_assoc])

lemma spaced_eq_join_ne (cs : List String) (h : cs ≠ []) :
    spaced cs = " " ++ joinSpace cs := by
  cases cs with
  | nil => exact absurd rfl h
  | cons c cs => exact spaced_eq_joinSpace c cs

lemma joinSpace_cons_ne (c : String) (cs : List String) (h : cs ≠ []) :
    joinSpace (c :: cs) = c ++ " " ++ joinSpace cs := by
  cases cs with
  | nil => exact absurd rfl h
  | cons d ds => rfl

lemma postFamClauses_ne_nil (a : Rule) : postFamClauses a ≠ [] := by
  simp [postFamClauses]

lemma tailClauses_ne_nil (a : Rule) :
    preFamClauses a ++ (famClauses a ++ postFamClauses a) ≠ [] := by
  intro h
  exact postFamClauses_ne_nil a (List.append_eq_nil.mp (List.append_eq_nil.mp h).2).2

/-- The code's output is the space-joined clause list, with one leading
space exactly when the action field is empty (in which case the pipeline's
initial accumulator contributes nothing but every appended clause still
carries its separator). -/
lemma toString_eq_lead_join (a : Rule) :
    Rule.toString a = (if a.Action = "" then " " else "") ++ ruleTextSpec a := by
  have htail := tailClauses_ne_nil a
  rw [toString_pipeline]
  by_cases hA : a.Action = ""
  · simp [actionText, hA, ruleTextSpec, ruleClauses, spaced_eq_join_ne _ htail]
  · simp [actionText, hA, ruleTextSpec, ruleClauses, joinSpace_cons_ne _ _ htail,
      spaced_eq_join_ne _ htail, String.append_assoc]

/-- C2 scenario rule: action=block, direction=in, protocol=tcp,
destination port=22, no addresses. -/
def scenarioRule : Rule :=
  { Action := "block", Direction := "in", Protocol := "tcp", DestPort := 22 }

/-! ## Claims about the Rule object -/

/-- **C1** (code bug): all field setters are guarded by the committed flag
and are no-ops on a committed Rule, but `SetLogging` carries no such guard:
on a committed Rule with logging off it still sets `Log` and changes the
serialized text, contradicting `Commit`'s own documentation ("commits the
current Rule so it is immutable").  The first conjunct proves the guard for
the eleven guarded setters; the second exhibits the `SetLogging`
violation on the committed zero Rule. -/
theorem c1_committed_rule_setters :
    (∀ (r : Rule), r.committed = true →
      ∀ (i c s : String) (m : List String) (p : Nat)
        (pr : PfProtocol) (ac : PfAction) (fa : PfAddrFam) (d : PfDirection),
        r.setSourceIP i m = r ∧ r.setSourceCIDR c = (r, none) ∧
        r.setDestinationIP i m = r ∧ r.setDestinationCIDR c = (r, none) ∧
        r.setSourcePort p = r ∧ r.setDestinationPort p = r ∧
        r.setInterface s = r ∧ r.setProtocol pr = r ∧ r.setAction ac = r ∧
        r.setAddrFamily fa = r ∧ r.setDirection d = r) ∧
    (Rule.setLogging { committed := true } ≠ ({ committed := true } : Rule) ∧
     (Rule.setLogging { committed := true }).Log = true ∧
     Rule.toString (Rule.setLogging { committed := true })
       ≠ Rule.toString { committed := true }) := by
  constructor
  · intro r hr i c s m p pr ac fa d
    simp [Rule.setSourceIP, Rule.setSourceCIDR, Rule.setDestinationIP,
      Rule.setDestinationCIDR, Rule.setSourcePort, Rule.setDestinationPort,
      Rule.setInterface, Rule.setProtocol, Rule.setAction, Rule.setAddrFamily,
      Rule.setDirection, hr]
  · exact ⟨by decide, rfl, by decide⟩

/-- Witness for C1: the guarded setters applied to a concrete committed
Rule with concrete arguments. -/
theorem c1_committed_rule_setters_witness :
    Rule.setInterface { committed := true } "em0" = ({ committed := true } : Rule) ∧
    Rule.setSourcePort { committed := true } 443 = ({ committed := true } : Rule) :=
  ⟨(c1_committed_rule_setters.1 { committed := true } rfl "1.2.3.4" "10.0.0.0/8" "em0"
      [] 443 ProtocolTcp ActionPass AdressFamilyInet DirectionIn).2.2.2.2.2.2.1,
   (c1_committed_rule_setters.1 { committed := true } rfl "1.2.3.4" "10.0.0.0/8" "em0"
      [] 443 ProtocolTcp ActionPass AdressFamilyInet DirectionIn).2.2.2.2.1⟩

/-- **C2 counterexample**: on the zero Rule the code's output is
`" from any to any"` — one leading space — while the clause list joined by
single spaces (the claim's reading: a clause is omitted exactly when its
field is zero, unset addresses render as any) is `"from any to any"`. -/
theorem c2_zero_rule_leading_space :
    Rule.toString {} ≠ ruleTextSpec {} ∧
    Rule.toString {} = " from any to any" ∧ ruleTextSpec {} = "from any to any" :=
  ⟨by decide, rfl, rfl⟩

/-- **C2 (amended)**: for every Rule, `Rule.String` is the clause list of
`ruleClauses` (optional clauses omitted exactly when their backing field
is at zero value, source/destination rendered as "any" when unset, a port
clause appended when the port is nonzero) joined by single spaces, with
one leading space exactly when the action field is empty; the scenario
rule — action=block, direction=in, protocol=tcp, destination port=22, no
addresses — serializes to exactly
`"block in proto tcp from any to any port 22"`. -/
theorem c2_rule_text_rendering :
    (∀ a : Rule, Rule.toString a = (if a.Action = "" then " " else "") ++ ruleTextSpec a) ∧
    Rule.toString scenarioRule = "block in proto tcp from any to any port 22" :=
  ⟨toString_eq_lead_join, rfl⟩

/-- **C3**: whenever the address-family field is nonempty, the serializer
emits one more `" on <interface>"` token, built from the *interface*
field, placed right after the action/direction/log/interface clauses and
before the protocol and address clauses; moreover the output does not
depend on which nonempty value the address-family field holds, so the
address-family string itself never enters the output. -/
theorem c3_addr_family_repeats_interface :
    ∀ a : Rule, a.AdressFamily ≠ "" →
      (Rule.toString a
        = actionText a ++ spaced (preFamClauses a) ++ (" on " ++ a.Interface)
            ++ spaced (postFamClauses a)) ∧
      (∀ v : String, v ≠ "" →
        Rule.toString { a with AdressFamily := v } = Rule.toString a) := by
  intro a h
  constructor
  · rw [toString_pipeline]
    simp [spaced_append, famClauses, h, spaced_single, spaced, String.append_assoc, sp_on]
  · intro v hv
    rw [toString_pipeline, toString_pipeline]
    simp [actionText, preFamClauses, famClauses, postFamClauses, fromClause, toClause, h, hv]

/-- Witness for C3 on a concrete rule with family "inet". -/
theorem c3_addr_family_repeats_interface_witness :
    Rule.toString { Interface := "em0", AdressFamily := "inet6" }
        = Rule.toString { Interface := "em0", AdressFamily := "inet" } ∧
    Rule.toString { Interface := "em0", AdressFamily := "inet" }
        = " on em0 on em0 from any to any" :=
  ⟨((c3_addr_family_repeats_interface { Interface := "em0", AdressFamily := "inet" }
      (by decide)).2 "inet6" (by decide)),
   rfl⟩

/-- **C4**: on an uncommitted Rule, `SetDestinationCIDR` (later revision,
designated canonical by the design document) assigns the parsed network to
the destination field and leaves the source field untouched, returning no
error; malformed CIDR text yields the parse error and leaves the Rule —
both fields — unchanged. -/
theorem c4_setDestinationCIDR :
    ∀ (r : Rule) (c : String), r.committed = false →
      (∀ ip net, goParseCIDR c = some (ip, net) →
        r.setDestinationCIDR c = ({ r with Destination := some net }, none)) ∧
      (goParseCIDR c = none →
        r.setDestinationCIDR c = (r, some (cidrParseError c))) := by
  intro r c hr
  constructor
  · intro ip net hp
    simp [Rule.setDestinationCIDR, hr, hp]
  · intro hp
    simp [Rule.setDestinationCIDR, hr, hp]

/-- Witness for C4: a well-formed and a malformed CIDR on the zero Rule. -/
theorem c4_setDestinationCIDR_witness :
    Rule.setDestinationCIDR {} "10.0.0.0/24"
        = ({ Destination := some { ip := some [10, 0, 0, 0], mask := [255, 255, 255, 0] } }, none) ∧
    Rule.setDestinationCIDR {} "banana" = ({}, some "invalid CIDR address: banana") :=
  ⟨(c4_setDestinationCIDR {} "10.0.0.0/24" rfl).1 [10, 0, 0, 0]
      { ip := some [10, 0, 0, 0], mask := [255, 255, 255, 0] } rfl,
   (c4_setDestinationCIDR {} "banana" rfl).2 rfl⟩

/-- For the record: in the earliest revision (`src/rule.go`),
`SetDestinationCIDR` assigns the parsed network to the *source* field —
the inconsistency the design document notes across revisions. -/
lemma setDestinationCIDRv0_assigns_source :
    Rule.setDestinationCIDRv0 {} "10.0.0.0/24"
      = ({ Source := some { ip := some [10, 0, 0, 0], mask := [255, 255, 255, 0] } }, none) := rfl

/-! ## RuleSet (`ruleset.go`) -/

/-- `RuleSet` represents a set of firewall rules. -/
structure RuleSet where
  Rules : List Rule := []
  deriving Repr, DecidableEq

/-- `AddRule` adds a given rule to the RuleSet rules array; the rule must
have the committed flag set to true, otherwise nothing happens. -/
def RuleSet.AddRule (rs : RuleSet) (r : Rule) : RuleSet :=
  if r.committed then { rs with Rules := rs.Rules ++ [r] } else rs

/-- The committed-rules string array built by the loops of `GetRules` and
`RulesString`: every committed rule's serialization, in order. -/
def RuleSet.ruleArray (rs : RuleSet) : List String :=
  rs.Rules.foldl (fun acc r => if r.committed then acc ++ [r.toString] else acc) []

/-- `RulesString` returns a line-separated string of all committed rules
of the current RuleSet (`strings.Join` over the loop-built array). -/
def RuleSet.RulesString (rs : RuleSet) : String :=
  String.intercalate "\n" rs.ruleArray

lemma foldl_committed_append (rules : List Rule) (acc : List String) :
    rules.foldl (fun acc r => if r.committed then acc ++ [r.toString] else acc) acc
      = acc ++ (rules.filter (fun r => r.committed)).map Rule.toString := by
  induction rules generalizing acc with
  | nil => simp
  | cons r rs ih => cases hc : r.committed <;> simp [ih, hc, List.filter_cons]

/-- **C5**: a RuleSet whose rules are all committed serializes to the
rules' texts joined by a single newline, in insertion order; the empty
RuleSet serializes to the empty string. -/
theorem c5_rulesString_newline_join :
    (∀ rules : List Rule, (∀ r ∈ rules, r.committed = true) →
      RuleSet.RulesString { Rules := rules }
        = String.intercalate "\n" (rules.map Rule.toString)) ∧
    RuleSet.RulesString { Rules := [] } = "" := by
  constructor
  · intro rules h
    have hf : rules.filter (fun r => r.committed) = rules :=
      List.filter_eq_self.mpr (fun r hr => by simp [h r hr])
    simp [RuleSet.RulesString, RuleSet.ruleArray, foldl_committed_append, hf]
  · rfl

/-- Witness for C5 on a two-rule committed RuleSet. -/
theorem c5_rulesString_newline_join_witness :
    RuleSet.RulesString
        { Rules := [{ Action := "block", committed := true },
                    { Action := "pass", committed := true }] }
      = "block from any to any\npass from any to any" := by
  have h := c5_rulesString_newline_join.1
    [{ Action := "block", committed := true }, { Action := "pass", committed := true }]
    (by decide)
  simpa using h

/-- **C7**: `AddRule` is a silent no-op for an uncommitted rule and
appends exactly the given rule at the end for a committed one; there is no
error channel. -/
theorem c7_addRule_commit_gate :
    ∀ (rs : RuleSet) (r : Rule),
      (r.committed = false → rs.AddRule r = rs) ∧
      (r.committed = true → (rs.AddRule r).Rules = rs.Rules ++ [r]) := by
  intro rs r
  constructor <;> intro h <;> simp [RuleSet.AddRule, h]

/-- Witness for C7: an uncommitted and a committed rule on the empty
RuleSet. -/
theorem c7_addRule_commit_gate_witness :
    RuleSet.AddRule { Rules := [] } {} = { Rules := [] } ∧
    (RuleSet.AddRule { Rules := [] } { committed := true }).Rules
      = [{ committed := true }] :=
  ⟨(c7_addRule_commit_gate { Rules := [] } {}).1 rfl,
   by simpa using (c7_addRule_commit_gate { Rules := [] } { committed := true }).2 rfl⟩

/-- **C8 counterexample**: on the uncommitted zero Rule,
`SetAction ActionUnknown` stores the empty string, not "block" — the
later revision gives `ActionUnknown` its own case mapping to `""`, so the
"fail-closed default" only covers integers outside the three named
constants. -/
theorem c8_action_unknown_empty :
    (Rule.setAction {} ActionUnknown).Action = "" ∧
    (Rule.setAction {} ActionUnknown).Action ≠ "block" ∧
    ({} : Rule).committed = false :=
  ⟨rfl, by decide, rfl⟩

/-- **C8 (amended)**: on an uncommitted Rule the enumerated setters never
error; unmapped direction/family/protocol values store the empty string;
`SetAction` stores the empty string for `ActionUnknown` and "block" (the
fail-closed default branch) for every value outside the pass, block and
unknown cases. -/
theorem c8_enum_setters_degrade :
    ∀ (r : Rule), r.committed = false →
      ∀ (d : PfDirection) (fa : PfAddrFam) (p : PfProtocol) (ac : PfAction),
        (d ≠ DirectionIn → d ≠ DirectionOut → (r.setDirection d).Direction = "") ∧
        (fa ≠ AdressFamilyInet → fa ≠ AdressFamilyInetv6 →
          (r.setAddrFamily fa).AdressFamily = "") ∧
        (p ≠ ProtocolTcp → p ≠ ProtocolUdp → p ≠ ProtocolIcmp → p ≠ ProtocolIcmpv6 →
          (r.setProtocol p).Protocol = "") ∧
        ((r.setAction ActionUnknown).Action = "") ∧
        (ac ≠ ActionPass → ac ≠ ActionBlock → ac ≠ ActionUnknown →
          (r.setAction ac).Action = "block") := by
  intro r hr d fa p ac
  refine ⟨fun h1 h2 => ?_, fun h1 h2 => ?_, fun h1 h2 h3 h4 => ?_, ?_, fun h1 h2 h3 => ?_⟩
  · simp [Rule.setDirection, hr, h1, h2]
  · simp [Rule.setAddrFamily, hr, h1, h2]
  · simp [Rule.setProtocol, hr, h1, h2, h3, h4]
  · simp [Rule.setAction, hr, ActionPass, ActionBlock, ActionUnknown]
  · simp [Rule.setAction, hr, h1, h2, h3]

/-- Witness for C8: unmapped constants on the zero Rule. -/
theorem c8_enum_setters_degrade_witness :
    (Rule.setDirection {} 7).Direction = "" ∧
    (Rule.setAddrFamily {} 7).AdressFamily = "" ∧
    (Rule.setProtocol {} 7).Protocol = "" ∧
    (Rule.setAction {} 7).Action = "block" := by
  have h := c8_enum_setters_degrade {} rfl 7 7 7 7
  exact ⟨h.1 (by decide) (by decide), h.2.1 (by decide) (by decide),
    h.2.2.1 (by decide) (by decide) (by decide) (by decide),
    h.2.2.2.2 (by decide) (by decide) (by decide)⟩

/-! ## The process-execution boundary (`pf.go`)

`execPfCtl` / `execPfCtlStdin` spawn one external process per call.  The
operating-system side is embedded as an abstract response function from an
invocation (executable path, argument vector, optional standard-input
payload) to either the captured standard-output lines or an error string
(the Go error already carries the embedded stderr text).  Every embedded
operation additionally returns the list of invocations it issued, so that
"exactly one process per call" is a provable statement rather than a
convention. -/

/-- One external process invocation: executable path, argument vector and
the standard-input payload (`none` when no stdin is piped). -/
structure Invocation where
  path : String
  args : List String
  stdin : Option String
  deriving Repr, DecidableEq

/-- The operating-system boundary: what a given invocation returns. -/
abbrev Executor := Invocation → Except String (List String)

/-- `Firewall` is the main Pf struct. -/
structure Firewall where
  ControlCmdPath : String
  IoDev : String
  deriving Repr, DecidableEq

/-- `execPfCtl` executes the pfctl command with the given arguments,
implicitly prefixing the quiet flag `-q`, and returns the stdout lines or
the execution error; exactly one process is spawned. -/
def Firewall.execPfCtl (res : Executor) (f : Firewall) (a : List String) :
    Except String (List String) × List Invocation :=
  let inv : Invocation := { path := f.ControlCmdPath, args := "-q" :: a, stdin := none }
  (res inv, [inv])

/-- `execPfCtlStdin` executes the pfctl command with the given arguments,
prefixing `-q`, and pipes the given buffer to its standard input. -/
def Firewall.execPfCtlStdin (res : Executor) (f : Firewall) (si : String)
    (a : List String) : Except String (List String) × List Invocation :=
  let inv : Invocation := { path := f.ControlCmdPath, args := "-q" :: a, stdin := some si }
  (res inv, [inv])

/-- `Anchor` is a pf firewall anchor struct (revision with the
back-reference to its Firewall). -/
structure Anchor where
  Name : String
  RuleSet : RuleSet
  FwObj : Firewall
  deriving Repr, DecidableEq

/-- `Anchor.Commit`: serializes the RuleSet, appends one trailing newline
(`RulesString() + "\n"` written into a byte buffer, whose write cannot
fail), and feeds it to `execPfCtlStdin` with arguments
`-a <name> -f - -v`; an execution error is returned as-is, success
returns `nil`. -/
def Anchor.Commit (res : Executor) (a : Anchor) : Option String × List Invocation :=
  let ruleSet := a.RuleSet.RulesString ++ "\n"
  match a.FwObj.execPfCtlStdin res ruleSet ["-a", a.Name, "-f", "-", "-v"] with
  | (Except.error e, tr) => (some e, tr)
  | (Except.ok _, tr) => (none, tr)

/-- `Firewall.Enabled` returns true if the packet filter is enabled: it
queries `-s Running`, returns false on a query error, and otherwise reads
`statOutput[0]` — with no length check, so an empty stdout makes the index
access panic, embedded here as the `none` result. -/
def Firewall.Enabled (res : Executor) (f : Firewall) :
    Option Bool × List Invocation :=
  match f.execPfCtl res ["-s", "Running"] with
  | (Except.error _, tr) => (some false, tr)
  | (Except.ok statOutput, tr) =>
    match statOutput with
    | [] => (none, tr)
    | s :: _ => (some (if s = "Enabled" then true else false), tr)

/-! ## Table batch operations (later revision of the tables file)

`AddToTableIP`, `AddToTableCIDR`, `RemoveFromTableIP` and
`RemoveFromTableCIDR` share one body verbatim, differing only in the
local parser (`net.ParseIP` vs `net.ParseCIDR`), the `-T` verb
(`add`/`delete`) and the aggregate message; the common body is embedded
once and instantiated four times. -/

/-- One loop iteration: parse the entry locally — on failure log and skip
(`continue`), contributing nothing; on success run one `execPfCtl`
invocation and collect the error message (`err.Error()`) if it failed. -/
def tableStep (res : Executor) (f : Firewall) (render : String → Option String)
    (verb t : String) (acc : List String × List Invocation) (entry : String) :
    List String × List Invocation :=
  match render entry with
  | none => acc
  | some addr =>
    match f.execPfCtl res ["-t", t, "-T", verb, addr] with
    | (Except.error err, tr) => (acc.1 ++ [err], acc.2 ++ tr)
    | (Except.ok _, tr) => (acc.1, acc.2 ++ tr)

/-- The common batch body: fold the per-entry step over the entries and,
if any execution error was collected, return the aggregate
`fmt.Errorf(msg + strings.Join(errArray, ", "))`; otherwise `nil`. -/
def tableBatch (res : Executor) (f : Firewall) (render : String → Option String)
    (verb msg t : String) (e : List String) : Option String × List Invocation :=
  let r := e.foldl (tableStep res f render verb t) ([], [])
  (if r.1.length > 0 then some (msg ++ String.intercalate ", " r.1) else none, r.2)

/-- The rendered address an IP-table entry contributes:
`net.ParseIP(x).String()`, or `none` for a parse failure. -/
def renderTableIP (s : String) : Option String :=
  (goParseIP s).map IPv4.render

/-- The rendered address a CIDR-table entry contributes: the *host*
address component of `net.ParseCIDR(x)` (the Go code passes `ipAddr`, not
the network), or `none` for a parse failure. -/
def renderTableCIDR (s : String) : Option String :=
  (goParseCIDR s).map (fun p => IPv4.render p.1)

/-- `AddToTableIP` adds one or more IP entries to a pf radix table. -/
def Firewall.AddToTableIP (res : Executor) (f : Firewall) (t : String)
    (e : List String) : Option String × List Invocation :=
  tableBatch res f renderTableIP "add"
    "One or more errors occurred adding IP(s) to table: " t e

/-- `AddToTableCIDR` adds one or more CIDR entries to a pf radix table. -/
def Firewall.AddToTableCIDR (res : Executor) (f : Firewall) (t : String)
    (e : List String) : Option String × List Invocation :=
  tableBatch res f renderTableCIDR "add"
    "One or more errors occurred adding IP(s) to table: " t e

/-- `RemoveFromTableIP` removes one or more IP entries from a pf radix
table. -/
def Firewall.RemoveFromTableIP (res : Executor) (f : Firewall) (t : String)
    (e : List String) : Option String × List Invocation :=
  tableBatch res f renderTableIP "delete"
    "One or more errors occurred removing IP(s) from table: " t e

/-- `RemoveFromTableCIDR` removes one or more CIDR entries from a pf radix
table. -/
def Firewall.RemoveFromTableCIDR (res : Executor) (f : Firewall) (t : String)
    (e : List String) : Option String × List Invocation :=
  tableBatch res f renderTableCIDR "delete"
    "One or more errors occurred removing IP(s) from table: " t e

/-- The invocation a successfully parsed entry triggers. -/
def tableInv (f : Firewall) (t verb addr : String) : Invocation :=
  { path := f.ControlCmdPath, args := ["-q", "-t", t, "-T", verb, addr], stdin := none }

/-- The per-entry execution failures of a batch, in entry order. -/
def tableErrs (res : Executor) (f : Firewall) (render : String → Option String)
    (verb t : String) (e : List String) : List String :=
  (e.filterMap render).filterMap (fun addr =>
    match res (tableInv f t verb addr) with
    | Except.error err => some err
    | Except.ok _ => none)

lemma execPfCtl_tableInv (res : Executor) (f : Firewall) (verb t addr : String) :
    Firewall.execPfCtl res f ["-t", t, "-T", verb, addr]
      = (res (tableInv f t verb addr), [tableInv f t verb addr]) := rfl

lemma tableStep_foldl (res : Executor) (f : Firewall)
    (render : String → Option String) (verb t : String) (e : List String)
    (acc : List String × List Invocation) :
    e.foldl (tableStep res f render verb t) acc
      = (acc.1 ++ tableErrs res f render verb t e,
         acc.2 ++ (e.filterMap render).map (tableInv f t verb)) := by
  induction e generalizing acc with
  | nil => simp [tableErrs]
  | cons x xs ih =>
    rcases hr : render x with _ | addr
    · simp [List.foldl_cons, tableStep, hr, ih, tableErrs, List.filterMap_cons]
    · rcases hres : res (tableInv f t verb addr) with err | out <;>
        simp [List.foldl_cons, tableStep, hr, execPfCtl_tableInv, ih, tableErrs,
          List.filterMap_cons, hres, List.append_assoc]

/-- Characterization of the common batch body. -/
lemma tableBatch_char (res : Executor) (f : Firewall)
    (render : String → Option String) (verb msg t : String) (e : List String) :
    tableBatch res f render verb msg t e
      = (if (tableErrs res f render verb t e).length > 0 then
           some (msg ++ String.intercalate ", " (tableErrs res f render verb t e))
         else none,
         (e.filterMap render).map (tableInv f t verb)) := by
  simp [tableBatch, tableStep_foldl]

/-- The single invocation `Anchor.Commit` issues: the quiet flag, the
anchor-load argument vector, and the newline-terminated ruleset as
stdin. -/
def anchorCommitInv (a : Anchor) : Invocation :=
  { path := a.FwObj.ControlCmdPath,
    args := ["-q", "-a", a.Name, "-f", "-", "-v"],
    stdin := some (a.RuleSet.RulesString ++ "\n") }

lemma commit_eq (res : Executor) (a : Anchor) :
    Anchor.Commit res a
      = ((match res (anchorCommitInv a) with
          | Except.error e => some e
          | Except.ok _ => none), [anchorCommitInv a]) := by
  rcases h : res (anchorCommitInv a) with e | out <;>
    simp only [anchorCommitInv] at h <;>
    simp [Anchor.Commit, Firewall.execPfCtlStdin, anchorCommitInv, h]

/-- **C6**: `Anchor.Commit` issues exactly one executor invocation, whose
argument vector is `-q -a <name> -f - -v` and whose stdin payload is the
RuleSet serialization followed by one trailing newline; an executor error
is propagated unchanged; with an empty RuleSet the payload is exactly
`"\n"`. -/
theorem c6_anchor_commit_payload :
    ∀ (res : Executor) (a : Anchor),
      (Anchor.Commit res a
        = ((match res (anchorCommitInv a) with
            | Except.error e => some e
            | Except.ok _ => none), [anchorCommitInv a])) ∧
      (∀ err, res (anchorCommitInv a) = Except.error err →
        (Anchor.Commit res a).1 = some err) ∧
      (a.RuleSet.Rules = [] → (anchorCommitInv a).stdin = some "\n") := by
  intro res a
  refine ⟨commit_eq res a, fun err h => ?_, fun h => ?_⟩
  · rw [commit_eq res a]
    simp [h]
  · simp [anchorCommitInv, RuleSet.RulesString, RuleSet.ruleArray, h]
    rfl

/-- Witness for C6: a failing executor and an empty-RuleSet anchor. -/
theorem c6_anchor_commit_payload_witness :
    Anchor.Commit (fun _ => Except.error "boom")
        { Name := "test", RuleSet := { Rules := [] },
          FwObj := { ControlCmdPath := "/sbin/pfctl", IoDev := "/dev/pf" } }
      = (some "boom",
         [{ path := "/sbin/pfctl", args := ["-q", "-a", "test", "-f", "-", "-v"],
            stdin := some "\n" }]) := by
  have h := (c6_anchor_commit_payload (fun _ => Except.error "boom")
    { Name := "test", RuleSet := { Rules := [] },
      FwObj := { ControlCmdPath := "/sbin/pfctl", IoDev := "/dev/pf" } }).1
  simpa using h

/-- **C9**: each of the four batch table operations maps every entry
through its local parser — unparsable entries are skipped and contribute
nothing — issues exactly one control-utility invocation
(`-q -t <table> -T <add|delete> <addr>`) per successfully parsed entry,
returns `nil` exactly when no issued invocation failed (parse skips do
not count), and otherwise one aggregate error joining the per-entry
execution error messages with `", "` after the fixed message prefix. -/
theorem c9_table_batch_ops :
    ∀ (res : Executor) (f : Firewall) (t : String) (e : List String),
      (Firewall.AddToTableIP res f t e
        = (if (tableErrs res f renderTableIP "add" t e).length > 0 then
             some ("One or more errors occurred adding IP(s) to table: "
               ++ String.intercalate ", " (tableErrs res f renderTableIP "add" t e))
           else none,
           (e.filterMap renderTableIP).map (tableInv f t "add"))) ∧
      (Firewall.AddToTableCIDR res f t e
        = (if (tableErrs res f renderTableCIDR "add" t e).length > 0 then
             some ("One or more errors occurred adding IP(s) to table: "
               ++ String.intercalate ", " (tableErrs res f renderTableCIDR "add" t e))
           else none,
           (e.filterMap renderTableCIDR).map (tableInv f t "add"))) ∧
      (Firewall.RemoveFromTableIP res f t e
        = (if (tableErrs res f renderTableIP "delete" t e).length > 0 then
             some ("One or more errors occurred removing IP(s) from table: "
               ++ String.intercalate ", " (tableErrs res f renderTableIP "delete" t e))
           else none,
           (e.filterMap renderTableIP).map (tableInv f t "delete"))) ∧
      (Firewall.RemoveFromTableCIDR res f t e
        = (if (tableErrs res f renderTableCIDR "delete" t e).length > 0 then
             some ("One or more errors occurred removing IP(s) from table: "
               ++ String.intercalate ", " (tableErrs res f renderTableCIDR "delete" t e))
           else none,
           (e.filterMap renderTableCIDR).map (tableInv f t "delete"))) ∧
      (tableErrs res f renderTableIP "add" t e = [] →
        (Firewall.AddToTableIP res f t e).1 = none) ∧
      (∀ err errs, tableErrs res f renderTableIP "add" t e = err :: errs →
        (Firewall.AddToTableIP res f t e).1
          = some ("One or more errors occurred adding IP(s) to table: "
              ++ String.intercalate ", " (err :: errs))) := by
  intro res f t e
  refine ⟨tableBatch_char .., tableBatch_char .., tableBatch_char .., tableBatch_char ..,
    fun h => ?_, fun err errs h => ?_⟩
  · rw [Firewall.AddToTableIP, tableBatch_char]
    simp [h]
  · rw [Firewall.AddToTableIP, tableBatch_char]
    simp [h]

/-- Witness for C9: a batch with one unparsable entry (skipped), one entry
whose invocation fails, and one that succeeds, on a concrete executor that
fails only for address `10.0.0.9`. -/
theorem c9_table_batch_ops_witness :
    Firewall.AddToTableIP
        (fun inv => if inv.args = ["-q", "-t", "tbl", "-T", "add", "10.0.0.9"]
          then Except.error "exit status 1" else Except.ok [])
        { ControlCmdPath := "/sbin/pfctl", IoDev := "/dev/pf" }
        "tbl" ["bogus", "10.0.0.9", "10.0.0.1"]
      = (some "One or more errors occurred adding IP(s) to table: exit status 1",
         [{ path := "/sbin/pfctl", args := ["-q", "-t", "tbl", "-T", "add", "10.0.0.9"],
            stdin := none },
          { path := "/sbin/pfctl", args := ["-q", "-t", "tbl", "-T", "add", "10.0.0.1"],
            stdin := none }]) := by
  have h := (c9_table_batch_ops
    (fun inv => if inv.args = ["-q", "-t", "tbl", "-T", "add", "10.0.0.9"]
      then Except.error "exit status 1" else Except.ok [])
    { ControlCmdPath := "/sbin/pfctl", IoDev := "/dev/pf" }
    "tbl" ["bogus", "10.0.0.9", "10.0.0.1"]).2.2.2.2.2 "exit status 1" [] (by decide)
  exact Prod.ext (h.trans rfl) rfl

/-- The single invocation `Firewall.Enabled` issues. -/
def enabledInv (f : Firewall) : Invocation :=
  { path := f.ControlCmdPath, args := ["-q", "-s", "Running"], stdin := none }

/-- **C10**: `Enabled` returns false when the status query errors; when
the query succeeds it reads `statOutput[0]` with no bounds check, so an
empty output line array makes the access panic (embedded as `none`), and
the function is total exactly when every successful query yields at least
one line, in which case the result compares that first line against
"Enabled". -/
theorem c10_enabled_unchecked_index :
    ∀ (res : Executor) (f : Firewall),
      (∀ e, res (enabledInv f) = Except.error e →
        Firewall.Enabled res f = (some false, [enabledInv f])) ∧
      (res (enabledInv f) = Except.ok [] →
        Firewall.Enabled res f = (none, [enabledInv f])) ∧
      (∀ l ls, res (enabledInv f) = Except.ok (l :: ls) →
        Firewall.Enabled res f
          = (some (if l = "Enabled" then true else false), [enabledInv f])) := by
  intro res f
  refine ⟨fun e h => ?_, fun h => ?_, fun l ls h => ?_⟩ <;>
    simp only [enabledInv] at h <;>
    simp [Firewall.Enabled, Firewall.execPfCtl, enabledInv, h]

/-- Witness for C10: the three executor behaviours on a concrete
firewall. -/
theorem c10_enabled_unchecked_index_witness :
    Firewall.Enabled (fun _ => Except.error "fail")
        { ControlCmdPath := "/sbin/pfctl", IoDev := "/dev/pf" }
      = (some false, [enabledInv { ControlCmdPath := "/sbin/pfctl", IoDev := "/dev/pf" }]) ∧
    Firewall.Enabled (fun _ => Except.ok [])
        { ControlCmdPath := "/sbin/pfctl", IoDev := "/dev/pf" }
      = (none, [enabledInv { ControlCmdPath := "/sbin/pfctl", IoDev := "/dev/pf" }]) ∧
    Firewall.Enabled (fun _ => Except.ok ["Enabled"])
        { ControlCmdPath := "/sbin/pfctl", IoDev := "/dev/pf" }
      = (some true, [enabledInv { ControlCmdPath := "/sbin/pfctl", IoDev := "/dev/pf" }]) :=
  ⟨(c10_enabled_unchecked_index (fun _ => Except.error "fail")
      { ControlCmdPath := "/sbin/pfctl", IoDev := "/dev/pf" }).1 "fail" rfl,
   (c10_enabled_unchecked_index (fun _ => Except.ok [])
      { ControlCmdPath := "/sbin/pfctl", IoDev := "/dev/pf" }).2.1 rfl,
   by simpa using (c10_enabled_unchecked_index (fun _ => Except.ok ["Enabled"])
      { ControlCmdPath := "/sbin/pfctl", IoDev := "/dev/pf" }).2.2 "Enabled" [] rfl⟩
